import Mathlib

/-!
Verification of the `parkinsons` analysis library (shallow embedding).

The analytic core of the repository is embedded over `ℚ`: every IEEE-754
double the Python code manipulates is some rational number, and all the
comparisons the claims are about are far from representation boundaries.
Missing values (`NaN` cells of a dataframe) are modelled as `Option.none`;
an IEEE `NaN` produced by a division `0/0` is likewise modelled as
`Option.none` where it can occur.

Sources embedded:
  * `parkinsons/statistics/outlier.py`  — `Outlier.univariate`
  * `parkinsons/data/base.py`           — `Dataset.info`, `Dataset.describe`
  * `parkinsons/analysis/base.py`       — `Dataset._info_table`, `Dataset.info`,
                                          `Dataset.compare`, `Dataset.describe`
  * `parkinsons/analysis/fog.py`        — `FOGDataset.__init__`, `FOGDataset.head`
-/

namespace Parkinsons

/-- `np.median`: sort the sample; for odd length take the middle element, for
even length the mean of the two middle elements.  `np.median([])` is `NaN`;
the embedding returns `0` there, and every theorem that touches the median
only does so under hypotheses that exclude the empty sample. -/
def median (a : List ℚ) : ℚ :=
  let s := a.insertionSort (· ≤ ·)
  let n := s.length
  if n = 0 then 0
  else if n % 2 = 1 then s.getD (n / 2) 0
  else (s.getD (n / 2 - 1) 0 + s.getD (n / 2) 0) / 2

/-- `Outlier.univariate`, lines computing `mad`:
`mad = np.median(np.abs(a - median)) * 1.4826` (the class constant
`__b = 1.4826`). -/
def madOf (a : List ℚ) : ℚ :=
  median (a.map (fun x => |x - median a|)) * (1.4826 : ℚ)

/-- `Outlier.univariate`: return `a[np.abs((a - median) / mad) < 3]`.
When `mad = 0`, NumPy's IEEE division yields `NaN` (for `x = median`) or
`±Inf` (otherwise); both make the comparison `< 3` false, so the element is
dropped.  The embedding makes that IEEE behaviour explicit with the
`if madOf a = 0 then false` branch. -/
def univariate (a : List ℚ) : List ℚ :=
  a.filter (fun x =>
    if madOf a = 0 then false
    else decide (|x - median a| / madOf a < 3))

/-- Round half to even (`numpy`/`pandas` rounding of a float to an integer). -/
def roundHE (x : ℚ) : ℤ :=
  let f := Int.floor x
  let r := x - (f : ℚ)
  if r < 1/2 then f
  else if 1/2 < r then f + 1
  else if Even f then f else f + 1

/-- `round(x, 2)` as applied by `round(info, 2)` in `Dataset.info`. -/
def rnd2 (x : ℚ) : ℚ := (roundHE (x * 100) : ℚ) / 100

/-- `round(x, 1)` as applied by `round(description[["mean", "std"]], 1)`. -/
def rnd1 (x : ℚ) : ℚ := (roundHE (x * 10) : ℚ) / 10

end Parkinsons

namespace Parkinsons

theorem roundHE_ge_floor (x : ℚ) : Int.floor x ≤ roundHE x := by
  unfold roundHE
  dsimp only
  split
  · exact le_refl _
  · split
    · exact le_of_lt (lt_add_one _)
    · split
      · exact le_refl _
      · exact le_of_lt (lt_add_one _)

theorem roundHE_le_floor_add_one (x : ℚ) : roundHE x ≤ Int.floor x + 1 := by
  unfold roundHE
  dsimp only
  split
  · exact le_of_lt (lt_add_one _)
  · split
    · exact le_refl _
    · split
      · exact le_of_lt (lt_add_one _)
      · exact le_refl _

theorem roundHE_intCast (n : ℤ) : roundHE (n : ℚ) = n := by
  unfold roundHE
  simp

theorem roundHE_nonneg {x : ℚ} (hx : 0 ≤ x) : 0 ≤ roundHE x := by
  have h := roundHE_ge_floor x
  have h0 : (0 : ℤ) ≤ Int.floor x := Int.floor_nonneg.mpr hx
  omega

theorem roundHE_le_of_le_intCast {x : ℚ} {n : ℤ} (hx : x ≤ (n : ℚ)) :
    roundHE x ≤ n := by
  rcases lt_or_eq_of_le hx with h | h
  · have hf : Int.floor x < n := Int.floor_lt.mpr h
    have := roundHE_le_floor_add_one x
    omega
  · rw [h, roundHE_intCast]

/-- One dataframe column: its name, its declared dtype, and its cells.
A cell is `Option.none` when the value is missing (pandas `NaN`). -/
structure Column where
  name : String
  dtype : String
  cells : List (Option ℚ)
deriving DecidableEq, Repr

/-- A pandas dataframe as the analytic core sees it: named, typed columns
and a row count (`df.shape[0]`). -/
structure Table where
  cols : List Column
  nrows : ℕ
deriving DecidableEq, Repr

/-- Well-formedness of a dataframe: every column has exactly `nrows` cells.
Every pandas dataframe satisfies this by construction. -/
def Table.Wf (t : Table) : Prop := ∀ c ∈ t.cols, c.cells.length = t.nrows

instance (t : Table) : Decidable t.Wf := by
  unfold Table.Wf; infer_instance

/-- `self._df.count()` for one column: number of non-missing cells. -/
def Column.valid (c : Column) : ℕ := c.cells.countP (fun x => x.isSome)

/-- `self._df.isna().sum()` for one column: number of missing cells. -/
def Column.nullCount (c : Column) : ℕ := c.cells.countP (fun x => x.isNone)

/-- `self._df.nunique()` for one column: number of distinct non-missing
values (pandas `nunique` drops `NaN` by default). -/
def Column.unique (c : Column) : ℕ := (c.cells.filterMap id).dedup.length

/-- `self._df.memory_usage(deep=True, index=False)` for one numeric column:
8 bytes per cell (float64). -/
def Column.size (c : Column) : ℕ := 8 * c.cells.length

/-- One row of the `info` dataframe built by `Dataset.info`
(`data/base.py`) / `Dataset._info_table` (`analysis/base.py`):
Column, Dtype, Valid, Null, Validity, Unique, Cardinality, Size.
The ratio fields are `Option ℚ`: `Option.none` models the IEEE `NaN`
produced by `0 / 0` when the table has zero rows. -/
structure ColumnSummary where
  name : String
  dtype : String
  valid : ℕ
  null : ℕ
  validity : Option ℚ
  unique : ℕ
  cardinality : Option ℚ
  size : ℕ
deriving DecidableEq, Repr

/-- The `info` row for one column.  `Validity = Valid / df.shape[0]` and
`Cardinality = Unique / df.shape[0]`; with zero rows both counts are zero
and the IEEE quotient `0 / 0` is `NaN`, modelled `Option.none`.  The final
`round(info, 2)` of the source only affects the two ratio columns (the
other columns are integers), embedded as `rnd2` on each ratio. -/
def summarizeCol (nrows : ℕ) (c : Column) : ColumnSummary :=
  { name := c.name
    dtype := c.dtype
    valid := c.valid
    null := c.nullCount
    validity :=
      if nrows = 0 then none else some (rnd2 ((c.valid : ℚ) / (nrows : ℚ)))
    unique := c.unique
    cardinality :=
      if nrows = 0 then none else some (rnd2 ((c.unique : ℚ) / (nrows : ℚ)))
    size := c.size }

/-- `Dataset.info` (`data/base.py`, lines 52-64): build the per-column
summary dataframe, rounded to two decimals. -/
def Table.info (t : Table) : List ColumnSummary :=
  t.cols.map (summarizeCol t.nrows)

/-- The outer `round(self._info, 2)` applied by `Dataset.info`
(`analysis/base.py`): re-round the two float columns of the cached info
dataframe (the integer columns are unchanged by `round`). -/
def roundSummary (s : ColumnSummary) : ColumnSummary :=
  { s with validity := s.validity.map rnd2, cardinality := s.cardinality.map rnd2 }

/-- `Dataset.info` / `Dataset._info_table` (`analysis/base.py`) with the
memoised `self._info` made explicit.  `_info_table` computes the summary
only when the cache is `Option.none` and stores it; `info` then returns
`round(self._info, 2)`.  Result: (returned table, cache after the call). -/
def infoCall (cache : Option (List ColumnSummary)) (t : Table) :
    List ColumnSummary × Option (List ColumnSummary) :=
  let c := match cache with
    | Option.none => Table.info t
    | some c0 => c0
  (c.map roundSummary, some c)

/-- The row of `df.describe(percentiles=PERCENTILES)` for one column, as
handed to `Dataset.describe` by the dataframe library: count, mean, std,
min, the 5th/25th/50th/75th/95th percentiles, max.  The values are the
floats pandas computed, embedded as rationals. -/
structure StatsRecord where
  count : ℚ
  mean : ℚ
  std : ℚ
  min : ℚ
  p05 : ℚ
  p25 : ℚ
  p50 : ℚ
  p75 : ℚ
  p95 : ℚ
  max : ℚ
deriving DecidableEq, Repr

/-- Result of `Dataset.describe` for one column: either the full
description row (verbose) or the single abbreviated `"mean ± std"` string. -/
inductive DescribeResult where
  | full : StatsRecord → DescribeResult
  | brief : String → DescribeResult
deriving DecidableEq, Repr

/-- Python `str` of a float holding an exact one-decimal value
(e.g. `str(2.5) = "2.5"`, `str(3.0) = "3.0"`, `str(-1.2) = "-1.2"`). -/
def decStr1 (q : ℚ) : String :=
  let k : ℤ := Int.floor (q * 10)
  (if k < 0 then "-" else "") ++ toString (k.natAbs / 10) ++ "." ++ toString (k.natAbs % 10)

/-- `Dataset.describe` (`data/base.py` lines 194-215, `analysis/base.py`
lines 321-342), applied to the description row of one column: with
`verbose=True` return the description; with `verbose=False` take
`round(description[["mean", "std"]], 1)`, build
`Average = str(mean) + " ± " + str(std)`, and return only the `Average`
column. -/
def describePost (description : StatsRecord) (verbose : Bool) : DescribeResult :=
  if verbose then DescribeResult.full description
  else
    let m := rnd1 description.mean
    let s := rnd1 description.std
    DescribeResult.brief (decStr1 m ++ " " ++ "±" ++ " " ++ decStr1 s)

/-- `np.sort` of the pooled sample `Z = sort(hstack(samples))` in
`scipy.stats.anderson_ksamp`. -/
def pooled (a b : List ℚ) : List ℚ :=
  (a ++ b).insertionSort (· ≤ ·)

/-- One term of the outer sum of `_anderson_ksamp_midrank` for sample `s`
against the pooled sorted sample `Z` with distinct values `Zstar`:
`(1 / n_i) * sum_j (lj / N * (N*Mij - Bj*n_i)^2 / (Bj*(N - Bj) - N*lj/4))`
where, for the j-th distinct value `v`,
`lj = multiplicity of v in Z`, `Bj = #(Z < v) + lj/2`,
`Mij = #(s <= v) - #(s = v)/2` (the midrank count via `searchsorted` on the
sorted sample). -/
def sampleTerm (Z Zstar : List ℚ) (s : List ℚ) : ℚ :=
  let N : ℚ := (Z.length : ℚ)
  let ni : ℚ := (s.length : ℚ)
  (1 / ni) *
    (Zstar.map (fun v =>
      let lj : ℚ := (Z.countP (fun z => decide (z = v)) : ℚ)
      let Bj : ℚ := (Z.countP (fun z => decide (z < v)) : ℚ) + lj / 2
      let Mij : ℚ := (s.countP (fun z => decide (z ≤ v)) : ℚ) -
        (s.countP (fun z => decide (z = v)) : ℚ) / 2
      lj / N * (N * Mij - Bj * ni) ^ 2 / (Bj * (N - Bj) - N * lj / 4))).sum

/-- `A2akN` of `scipy.stats._anderson_ksamp_midrank` for the two samples
passed by `Dataset.compare`: `A2akN = (N-1)/N * sum_i term_i`.  (When every
pooled value is distinct the source shortcuts `lj = 1`, which equals the
multiplicity count used here.) -/
def A2akN (a b : List ℚ) : ℚ :=
  let Z := pooled a b
  let Zstar := Z.dedup
  let N : ℚ := (Z.length : ℚ)
  (N - 1) / N * (sampleTerm Z Zstar a + sampleTerm Z Zstar b)

/-- `h = (1. / arange(1, N)).sum()` of `anderson_ksamp`: the harmonic sum
`1/1 + ... + 1/(N-1)`. -/
def harmSum (m : ℕ) : ℚ :=
  ((List.range m).map (fun i => 1 / ((i : ℚ) + 1))).sum

/-- `g = 2 * sum over 1 <= i < j <= N-1 of 1 / ((N - i) * j)` — literally,
scipy computes `g = (ii * (1. / arange(ii + 1, N))).sum()` summed over
`ii = 1/(N-1), ..., 1/2` after `ii = np.arange(1, N - 1); g = ...`; written
out: `g = sum_{i=1}^{N-2} sum_{j=i+1}^{N-1} 1 / ((N - i) * j)`. -/
def gSum (N : ℕ) : ℚ :=
  ((List.range (N - 2)).map (fun i0 =>
    let i := i0 + 1
    ((List.range (N - 1 - i)).map (fun j0 =>
      let j := i + 1 + j0
      1 / (((N - i : ℕ) : ℚ) * (j : ℚ)))).sum)).sum

/-- `sigmasq` of `scipy.stats.anderson_ksamp` for `k = 2` samples of sizes
`n1` and `n2`:  with `N = n1 + n2`, `H = 1/n1 + 1/n2`, `h` and `g` as
above, `sigmasq = (a*N^3 + b*N^2 + c*N + d) / ((N-1)*(N-2)*(N-3))` with the
published Scholz–Stephens coefficients. -/
def sigmasq (n1 n2 : ℕ) : ℚ :=
  let k : ℚ := 2
  let N : ℚ := ((n1 + n2 : ℕ) : ℚ)
  let H : ℚ := 1 / (n1 : ℚ) + 1 / (n2 : ℚ)
  let hh : ℚ := harmSum (n1 + n2 - 1)
  let g : ℚ := gSum (n1 + n2)
  let ca : ℚ := (4 * g - 6) * (k - 1) + (10 - 6 * g) * H
  let cb : ℚ := (2 * g - 4) * k ^ 2 + 8 * hh * k + (2 * g - 14 * hh - 4) * H -
    8 * hh + 4 * g - 6
  let cc : ℚ := (6 * hh + 2 * g - 2) * k ^ 2 + (4 * hh - 4 * g + 6) * k +
    (2 * hh - 6) * H + 4 * hh
  let cd : ℚ := (2 * hh + 6) * k ^ 2 - 4 * hh * k
  (ca * N ^ 3 + cb * N ^ 2 + cc * N + cd) / ((N - 1) * (N - 2) * (N - 3))

/-- The data determining the statistic returned by `Dataset.compare`
(`analysis/base.py` lines 125-132, a direct call to
`scipy.stats.anderson_ksamp([a, b])`):  the normalised statistic is
`A2 = (A2akN - (k-1)) / sqrt(sigmasq)` with `k = 2`, so it is a function
of the pair `(A2akN - 1, sigmasq)` recorded here. -/
structure AndersonParts where
  numer : ℚ
  sigsq : ℚ
deriving DecidableEq, Repr

/-- The statistic-determining pair for `Dataset.compare(a, b)`. -/
def compareParts (a b : List ℚ) : AndersonParts :=
  { numer := A2akN a b - 1, sigsq := sigmasq a.length b.length }

/-- A Python attribute value of a `FOGDataset` instance. -/
inductive PyVal where
  | pyNone : PyVal
  | pyStr : String → PyVal
  | pyTable : Table → PyVal
deriving DecidableEq, Repr

/-- A Python object as an attribute dictionary (`instance.__dict__`). -/
structure PyObj where
  attrs : List (String × PyVal)
deriving DecidableEq, Repr

/-- Python attribute lookup: `AttributeError` when the name is absent. -/
inductive PyErr where
  | attributeError : String → PyErr
deriving DecidableEq, Repr

def getAttr (o : PyObj) (n : String) : Except PyErr PyVal :=
  match o.attrs.lookup n with
  | some v => Except.ok v
  | Option.none => Except.error (PyErr.attributeError n)

/-- `df.head(n)`: the first `n` rows of a table. -/
def Table.headRows (t : Table) (n : ℕ) : Table :=
  { cols := t.cols.map (fun c => { c with cells := c.cells.take n })
    nrows := min n t.nrows }

/-- `FOGDataset.__init__` (`analysis/fog.py` lines 40-44): assign exactly
`self._filepath`, `self._df = pd.read_csv(self._filepath)`,
`self._info = None` and `self._subject_summary = None`.  The dataframe the
CSV reader produced is passed in as `df`. -/
def FOGDataset.init (filepath : String) (df : Table) : PyObj :=
  { attrs := [("_filepath", PyVal.pyStr filepath),
              ("_df", PyVal.pyTable df),
              ("_info", PyVal.pyNone),
              ("_subject_summary", PyVal.pyNone)] }

/-- `FOGDataset.head` (`analysis/fog.py` lines 46-47):
`return self._flog.head(n)` — an attribute read of `self._flog` followed by
a `.head(n)` call on its value. -/
def FOGDataset.head (o : PyObj) (n : ℕ) : Except PyErr Table :=
  match getAttr o "_flog" with
  | Except.error e => Except.error e
  | Except.ok (PyVal.pyTable t) => Except.ok (t.headRows n)
  | Except.ok _ => Except.error (PyErr.attributeError "head")

/-- C1: for the sample `[1,2,2,3,100]` with threshold 3, `Outlier.univariate`
computes median 2 and MAD 1.4826, removes 100 and returns `[1,2,2,3]`; in
general, whenever the MAD is nonzero the output is exactly the
order-preserving sublist of elements `x` with
`|x - median| / (1.4826 * median |x - median|) < 3`. -/
theorem c1_univariate_outlier_filter :
    median [1, 2, 2, 3, 100] = 2 ∧
    madOf [1, 2, 2, 3, 100] = (1.4826 : ℚ) ∧
    univariate [1, 2, 2, 3, 100] = [1, 2, 2, 3] ∧
    ∀ a : List ℚ, madOf a ≠ 0 →
      univariate a = a.filter (fun x => decide (|x - median a| / madOf a < 3)) ∧
      (univariate a).Sublist a := by
  refine ⟨?_, ?_, ?_, ?_⟩
  · norm_num [median, List.insertionSort, List.orderedInsert]
  · norm_num [madOf, median, List.insertionSort, List.orderedInsert, abs]
  · norm_num [univariate, madOf, median, List.insertionSort, List.orderedInsert,
      abs, List.filter]
  intro a h
  have he : univariate a =
      a.filter (fun x => decide (|x - median a| / madOf a < 3)) := by
    unfold univariate
    congr 1
    funext x
    rw [if_neg h]
  exact ⟨he, he ▸ List.filter_sublist a⟩

/-- C1 witness: a concrete sample with nonzero MAD on which the general part
of the claim is instantiated. -/
theorem c1_univariate_outlier_filter_witness :
    madOf [1, 2, 4] ≠ 0 ∧
    univariate [1, 2, 4] =
      List.filter (fun x => decide (|x - median [1, 2, 4]| / madOf [1, 2, 4] < 3))
        [1, 2, 4] := by
  have hm : madOf [1, 2, 4] ≠ 0 := by
    norm_num [madOf, median, List.insertionSort, List.orderedInsert, abs]
  exact ⟨hm, (c1_univariate_outlier_filter.2.2.2 [1, 2, 4] hm).1⟩

/-- C2 counterexample: on the zero-spread sample `[5,5,5,5]` the filter
returns the empty list — neither the unchanged input nor an error (the
source has no raise statement and defines no `DegenerateSampleError`), so
the claimed disjunction fails. -/
theorem c2_degenerate_counterexample :
    univariate [5, 5, 5, 5] = [] ∧ univariate [5, 5, 5, 5] ≠ [5, 5, 5, 5] := by
  have h : univariate [5, 5, 5, 5] = [] := by
    norm_num [univariate, madOf, median, List.insertionSort, List.orderedInsert,
      abs, List.filter]
  exact ⟨h, by rw [h]; simp⟩

/-- C2 amended: for every sample whose MAD is zero the filter removes every
element and returns the empty sample (NumPy's `0/0` and `x/0` give `NaN`
and `Inf`, and both fail the `< 3` comparison). -/
theorem c2_degenerate_returns_empty (a : List ℚ) (h : madOf a = 0) :
    univariate a = [] := by
  unfold univariate
  have hf : (fun x : ℚ =>
      if madOf a = 0 then false else decide (|x - median a| / madOf a < 3)) =
      fun _ => false := by
    funext x
    rw [if_pos h]
  rw [hf]
  simp

/-- C2 witness: the amended behaviour at the concrete sample `[5,5,5,5]`. -/
theorem c2_degenerate_returns_empty_witness :
    madOf [5, 5, 5, 5] = 0 ∧ univariate [5, 5, 5, 5] = [] := by
  have hm : madOf [5, 5, 5, 5] = 0 := by
    norm_num [madOf, median, List.insertionSort, List.orderedInsert, abs]
  exact ⟨hm, c2_degenerate_returns_empty [5, 5, 5, 5] hm⟩

/-- C3 counterexample: on a zero-row table `Dataset.info` does not fail —
the repository defines no `EmptyTableError` and `info` has no error path —
it returns a summary whose Validity and Cardinality are the IEEE `NaN`
(`0/0`), modelled `Option.none`. -/
theorem c3_empty_table_counterexample :
    Table.info { cols := [{ name := "A", dtype := "float64", cells := [] }], nrows := 0 } =
      [{ name := "A", dtype := "float64", valid := 0, null := 0,
         validity := Option.none, unique := 0, cardinality := Option.none, size := 0 }] := by
  decide

/-- C3 amended: for every table with zero rows, `Dataset.info` returns a
per-column summary whose validity and cardinality are NaN (undefined,
modelled `Option.none`) instead of failing with `EmptyTableError`. -/
theorem c3_empty_table_yields_nan (t : Table) (h : t.nrows = 0) :
    ∀ s ∈ Table.info t, s.validity = Option.none ∧ s.cardinality = Option.none := by
  intro s hs
  rcases List.mem_map.mp hs with ⟨c, _, rfl⟩
  simp [summarizeCol, h]

/-- C3 witness: the amended behaviour at a concrete zero-row table. -/
theorem c3_empty_table_yields_nan_witness :
    (Table.mk [Column.mk "A" "float64" []] 0).nrows = 0 ∧
    ∀ s ∈ Table.info (Table.mk [Column.mk "A" "float64" []] 0),
      s.validity = Option.none ∧ s.cardinality = Option.none :=
  ⟨rfl, c3_empty_table_yields_nan _ rfl⟩

theorem countP_isSome_add_isNone (l : List (Option ℚ)) :
    l.countP (fun x => x.isSome) + l.countP (fun x => x.isNone) = l.length := by
  induction l with
  | nil => rfl
  | cons x xs ih => cases x <;> simp [List.countP_cons, ← ih] <;> omega

theorem rnd2_mem_unit {x : ℚ} (h0 : 0 ≤ x) (h1 : x ≤ 1) :
    0 ≤ rnd2 x ∧ rnd2 x ≤ 1 := by
  unfold rnd2
  constructor
  · apply div_nonneg _ (by norm_num)
    exact_mod_cast roundHE_nonneg (by positivity)
  · rw [div_le_one (by norm_num)]
    have h : roundHE (x * 100) ≤ (100 : ℤ) :=
      roundHE_le_of_le_intCast (by push_cast; linarith)
    exact_mod_cast h

theorem Column.valid_le_length (c : Column) : c.valid ≤ c.cells.length :=
  List.countP_le_length _

theorem Column.unique_le_valid (c : Column) : c.unique ≤ c.valid := by
  unfold Column.unique Column.valid
  have h1 : (c.cells.filterMap id).dedup.length ≤ (c.cells.filterMap id).length :=
    (List.dedup_sublist _).length_le
  have h2 : (c.cells.filterMap id).length = c.cells.countP (fun x => x.isSome) := by
    induction c.cells with
    | nil => rfl
    | cons x xs ih => cases x <;> simp [List.countP_cons, ih]
  omega

/-- A count `m ≤ nrows` divided by a positive `nrows` and rounded to two
decimals stays in `[0, 1]`. -/
theorem ratio_rnd2_mem_unit {m nrows : ℕ} (h0 : 0 < nrows) (hm : m ≤ nrows) :
    0 ≤ rnd2 ((m : ℚ) / (nrows : ℚ)) ∧ rnd2 ((m : ℚ) / (nrows : ℚ)) ≤ 1 := by
  have hpos : (0 : ℚ) < (nrows : ℚ) := by exact_mod_cast h0
  apply rnd2_mem_unit
  · positivity
  · rw [div_le_one hpos]
    exact_mod_cast hm

/-- C4: for every non-empty well-formed table and every column, the summary
satisfies `Valid + Null = row_count`. -/
theorem c4_valid_add_null_eq_nrows (t : Table) (h0 : 0 < t.nrows) (hwf : t.Wf) :
    ∀ s ∈ Table.info t, s.valid + s.null = t.nrows := by
  intro s hs
  rcases List.mem_map.mp hs with ⟨c, hc, rfl⟩
  have hlen := hwf c hc
  show c.valid + c.nullCount = t.nrows
  rw [← hlen]
  exact countP_isSome_add_isNone c.cells

/-- C4 witness: the invariant at a concrete two-row table with a missing
cell. -/
theorem c4_valid_add_null_eq_nrows_witness :
    0 < (Table.mk [Column.mk "A" "float64" [some 1, Option.none]] 2).nrows ∧
    (Table.mk [Column.mk "A" "float64" [some 1, Option.none]] 2).Wf ∧
    ∀ s ∈ Table.info (Table.mk [Column.mk "A" "float64" [some 1, Option.none]] 2),
      s.valid + s.null = (Table.mk [Column.mk "A" "float64" [some 1, Option.none]] 2).nrows :=
  ⟨by decide, by decide, c4_valid_add_null_eq_nrows _ (by decide) (by decide)⟩

/-- C5: for every non-empty well-formed table, every column's Validity and
Cardinality in the summary are defined and lie in `[0, 1]`. -/
theorem c5_ratios_in_unit_interval (t : Table) (h0 : 0 < t.nrows) (hwf : t.Wf) :
    ∀ s ∈ Table.info t,
      (∃ v, s.validity = some v ∧ 0 ≤ v ∧ v ≤ 1) ∧
      (∃ v, s.cardinality = some v ∧ 0 ≤ v ∧ v ≤ 1) := by
  intro s hs
  rcases List.mem_map.mp hs with ⟨c, hc, rfl⟩
  have hlen := hwf c hc
  have hnz : t.nrows ≠ 0 := Nat.pos_iff_ne_zero.mp h0
  have hvalid : c.valid ≤ t.nrows := hlen ▸ c.valid_le_length
  have huniq : c.unique ≤ t.nrows := le_trans c.unique_le_valid hvalid
  constructor
  · refine ⟨rnd2 ((c.valid : ℚ) / (t.nrows : ℚ)), ?_, ?_, ?_⟩
    · show (if t.nrows = 0 then none else some (rnd2 ((c.valid : ℚ) / (t.nrows : ℚ)))) = _
      rw [if_neg hnz]
    · exact (ratio_rnd2_mem_unit h0 hvalid).1
    · exact (ratio_rnd2_mem_unit h0 hvalid).2
  · refine ⟨rnd2 ((c.unique : ℚ) / (t.nrows : ℚ)), ?_, ?_, ?_⟩
    · show (if t.nrows = 0 then none else some (rnd2 ((c.unique : ℚ) / (t.nrows : ℚ)))) = _
      rw [if_neg hnz]
    · exact (ratio_rnd2_mem_unit h0 huniq).1
    · exact (ratio_rnd2_mem_unit h0 huniq).2

/-- C5 witness: the invariant at a concrete two-row table. -/
theorem c5_ratios_in_unit_interval_witness :
    0 < (Table.mk [Column.mk "A" "float64" [some 1, Option.none]] 2).nrows ∧
    (Table.mk [Column.mk "A" "float64" [some 1, Option.none]] 2).Wf ∧
    ∀ s ∈ Table.info (Table.mk [Column.mk "A" "float64" [some 1, Option.none]] 2),
      (∃ v, s.validity = some v ∧ 0 ≤ v ∧ v ≤ 1) ∧
      (∃ v, s.cardinality = some v ∧ 0 ≤ v ∧ v ≤ 1) :=
  ⟨by decide, by decide, c5_ratios_in_unit_interval _ (by decide) (by decide)⟩

/-- C6: for every loaded table, `info` yields one `ColumnSummary` record
per column, keyed by the column's name in order. -/
theorem c6_info_maps_each_column (t : Table) :
    (Table.info t).map ColumnSummary.name = t.cols.map Column.name ∧
    (Table.info t).length = t.cols.length := by
  unfold Table.info
  exact ⟨by rw [List.map_map]; rfl, by rw [List.length_map]⟩

/-- C7: summarisation is idempotent — with the memoised `self._info` made
explicit, a second `info` call on the unchanged table returns the same
output as the first and leaves the cache unchanged. -/
theorem c7_info_idempotent (t : Table) :
    infoCall (infoCall Option.none t).2 t = infoCall Option.none t := rfl

/-- C8: `describe` with `verbose=False` returns only the single string
`"<mean> ± <std>"` built from the description's mean and std, each rounded
to one decimal place. -/
theorem c8_describe_brief (d : StatsRecord) :
    describePost d false =
      DescribeResult.brief
        (decStr1 (rnd1 d.mean) ++ " " ++ "±" ++ " " ++ decStr1 (rnd1 d.std)) := rfl

theorem pooled_comm (a b : List ℚ) : pooled a b = pooled b a := by
  apply List.eq_of_perm_of_sorted (r := (· ≤ · : ℚ → ℚ → Prop))
  · exact ((List.perm_insertionSort _ _).trans List.perm_append_comm).trans
      (List.perm_insertionSort _ _).symm
  · exact List.sorted_insertionSort _ _
  · exact List.sorted_insertionSort _ _

theorem A2akN_comm (a b : List ℚ) : A2akN a b = A2akN b a := by
  simp only [A2akN]
  rw [pooled_comm]
  ring

theorem sigmasq_comm (m n : ℕ) : sigmasq m n = sigmasq n m := by
  simp only [sigmasq]
  rw [Nat.add_comm m n]
  ring

/-- C9: distribution comparison is symmetric in its two samples — for
samples each of size at least 2, the data determining
`compare(a, b).statistic` (the numerator `A2akN - (k-1)` and the variance
`sigmasq`, of which the statistic is the quotient by the square root) is
identical for `compare(a, b)` and `compare(b, a)`. -/
theorem c9_compare_symmetric (a b : List ℚ)
    (ha : 2 ≤ a.length) (hb : 2 ≤ b.length) :
    compareParts a b = compareParts b a := by
  unfold compareParts
  rw [A2akN_comm, sigmasq_comm]

/-- C9 witness: symmetry at the concrete samples `[1,2]` and `[3,4]`. -/
theorem c9_compare_symmetric_witness :
    2 ≤ ([1, 2] : List ℚ).length ∧ 2 ≤ ([3, 4] : List ℚ).length ∧
    compareParts [1, 2] [3, 4] = compareParts [3, 4] [1, 2] :=
  ⟨by decide, by decide, c9_compare_symmetric [1, 2] [3, 4] (by decide) (by decide)⟩

/-- C10: every `FOGDataset` instance raises `AttributeError` from
`head(n)`: `__init__` assigns only `_filepath`, `_df`, `_info` and
`_subject_summary`, and `head` reads the never-assigned `self._flog`. -/
theorem c10_head_raises_attribute_error (fp : String) (df : Table) (n : ℕ) :
    FOGDataset.head (FOGDataset.init fp df) n =
      Except.error (PyErr.attributeError "_flog") := rfl

end Parkinsons
